import Mathlib

/-!
Shallow embedding of the message-understanding core of the Thuk expense
tracker (app/processors/text_parser.py, app/utils/currency.py,
app/agents/split_agent.py) and proofs about it.

Modelling conventions:
* Python strings are modelled as `List Char` (`Str`); `str.lower` is modelled
  as the ASCII case map (no character involved in the source's patterns is
  affected by non-ASCII case folding).
* Python `Decimal` values are modelled as rationals (`ℚ`); `Decimal`
  construction from a matched amount literal is exact in Python as well,
  while the arithmetic of the split calculator runs under the default
  `decimal` context and is therefore modelled with an explicit rounding to
  28 significant digits, `ROUND_HALF_EVEN` (`round28`).
* Each `re` pattern of the source is embedded as an executable matcher with
  Python's leftmost-search and greedy-quantifier semantics specialised to the
  concrete pattern (noted at each matcher).
* Fallible operations (`try/except`, absent entities) are `Option`.
-/

abbrev Str := List Char

/-- The characters of a string literal, used to write `Str` constants. -/
def lit (s : String) : Str := s.data

/-- ASCII lower-casing of one character, modelling `str.lower` on the
alphabets used by the source's patterns. -/
def pyLower (c : Char) : Char :=
  if c = 'A' then 'a' else if c = 'B' then 'b' else if c = 'C' then 'c'
  else if c = 'D' then 'd' else if c = 'E' then 'e' else if c = 'F' then 'f'
  else if c = 'G' then 'g' else if c = 'H' then 'h' else if c = 'I' then 'i'
  else if c = 'J' then 'j' else if c = 'K' then 'k' else if c = 'L' then 'l'
  else if c = 'M' then 'm' else if c = 'N' then 'n' else if c = 'O' then 'o'
  else if c = 'P' then 'p' else if c = 'Q' then 'q' else if c = 'R' then 'r'
  else if c = 'S' then 's' else if c = 'T' then 't' else if c = 'U' then 'u'
  else if c = 'V' then 'v' else if c = 'W' then 'w' else if c = 'X' then 'x'
  else if c = 'Y' then 'y' else if c = 'Z' then 'z' else c

/-- ASCII upper-casing of one character (for `str.capitalize`). -/
def pyUpper (c : Char) : Char :=
  if c = 'a' then 'A' else if c = 'b' then 'B' else if c = 'c' then 'C'
  else if c = 'd' then 'D' else if c = 'e' then 'E' else if c = 'f' then 'F'
  else if c = 'g' then 'G' else if c = 'h' then 'H' else if c = 'i' then 'I'
  else if c = 'j' then 'J' else if c = 'k' then 'K' else if c = 'l' then 'L'
  else if c = 'm' then 'M' else if c = 'n' then 'N' else if c = 'o' then 'O'
  else if c = 'p' then 'P' else if c = 'q' then 'Q' else if c = 'r' then 'R'
  else if c = 's' then 'S' else if c = 't' then 'T' else if c = 'u' then 'U'
  else if c = 'v' then 'V' else if c = 'w' then 'W' else if c = 'x' then 'X'
  else if c = 'y' then 'Y' else if c = 'z' then 'Z' else c

def lowerL (s : Str) : Str := s.map pyLower

/-- Python `\s` (whitespace class), ASCII part. -/
def pySpace (c : Char) : Bool :=
  c = ' ' || c.toNat = 9 || c.toNat = 10 || c.toNat = 13 || c.toNat = 11 || c.toNat = 12

def isDigitB (c : Char) : Bool := 48 ≤ c.toNat && c.toNat ≤ 57

def isUpperB (c : Char) : Bool := 65 ≤ c.toNat && c.toNat ≤ 90

def isLowerB (c : Char) : Bool := 97 ≤ c.toNat && c.toNat ≤ 122

/-- Python `\w` (word character class), ASCII part. -/
def isWordChar (c : Char) : Bool := isDigitB c || isUpperB c || isLowerB c || c = '_'

/-- Literal match at the front of the text: the remainder on success. -/
def stripLit : Str → Str → Option Str
  | [], t => some t
  | _ :: _, [] => none
  | p :: ps, c :: cs => if p = c then stripLit ps cs else none

/-- Case-insensitive literal match at the front (the pattern is given in
lower case, the text is lowered character-wise). -/
def stripLitCI : Str → Str → Option Str
  | [], t => some t
  | _ :: _, [] => none
  | p :: ps, c :: cs => if p = pyLower c then stripLitCI ps cs else none

def startsWithL (p t : Str) : Bool := (stripLit p t).isSome

/-- Substring containment, modelling Python's `pat in text` and
`re.search` of a literal pattern. -/
def containsL (p : Str) : Str → Bool
  | [] => startsWithL p []
  | c :: cs => startsWithL p (c :: cs) || containsL p cs

def anyContains (pats : List String) (t : Str) : Bool :=
  pats.any fun p => containsL p.data t

/-- Leftmost search: the first position (scanning left to right) where the
positional matcher succeeds, modelling `re.search`. -/
def scanFirst {α : Type} (f : Str → Option α) : Str → Option α
  | [] => f []
  | c :: cs => (f (c :: cs)).orElse fun _ => scanFirst f cs

def boundaryOk : Option Char → Bool
  | none => true
  | some c => !isWordChar c

def headNotWord : Str → Bool
  | [] => true
  | c :: _ => !isWordChar c

/-- Occurrence of a literal word with `\b` on both sides (the word starts and
ends with word characters, as all the source's `\b`-delimited words do):
some position has a non-word (or no) character before it, the word itself,
and a non-word (or no) character after it. -/
def wordOccursAux (w : Str) : Option Char → Str → Bool
  | _, [] => false
  | prev, c :: cs =>
    (boundaryOk prev &&
      (match stripLit w (c :: cs) with
       | some rest => headNotWord rest
       | none => false))
    || wordOccursAux w (some c) cs

def wordOccursL (w t : Str) : Bool := wordOccursAux w none t

section IntentClassifier

/-- Intent enumeration from `text_parser.Intent`. -/
inductive Intent
  | addExpense
  | queryExpenses
  | splitPayment
  | checkDebts
  | settleDebt
  | addCategory
  | listCategories
  | deleteExpense
  | help
  | unknown
deriving DecidableEq, Repr

/-- `DELETE_PATTERNS = [r"delete|remove|cancel|undo"]` (alternation of
literals: matches iff some literal occurs). -/
def delete_match (t : Str) : Bool :=
  anyContains ["delete", "remove", "cancel", "undo"] t

/-- `DEBT_SETTLE_PATTERNS = [r"paid me|settled|paid back|cleared|received from"]`. -/
def settle_match (t : Str) : Bool :=
  anyContains ["paid me", "settled", "paid back", "cleared", "received from"] t

/-- `DEBT_CHECK_PATTERNS = [r"who owes|owes me|owe me|my debts|debt summary|pending"]`. -/
def debt_check_match (t : Str) : Bool :=
  anyContains ["who owes", "owes me", "owe me", "my debts", "debt summary", "pending"] t

/-- The `with \d+ people` alternative of `SPLIT_PATTERNS`, at one position:
literal `with `, one or more digits (greedy, exact since a digit cannot
start ` people`), literal ` people`. -/
def withPeopleAt (t : Str) : Option Unit := do
  let r ← stripLit (lit "with ") t
  let ds := r.takeWhile isDigitB
  if ds.isEmpty then none
  else
    let _ ← stripLit (lit " people") (r.dropWhile isDigitB)
    some ()

/-- `SPLIT_PATTERNS = [r"split|divide|share|among|between|with \d+ people"]`. -/
def split_match (t : Str) : Bool :=
  anyContains ["split", "divide", "share", "among", "between"] t
  || (scanFirst withPeopleAt t).isSome

/-- `LIST_CATEGORY_PATTERNS = [r"my categories|list categories|show categories"]`. -/
def list_cat_match (t : Str) : Bool :=
  anyContains ["my categories", "list categories", "show categories"] t

/-- `CATEGORY_PATTERNS = [r"add category|new category|create category"]`. -/
def add_cat_match (t : Str) : Bool :=
  anyContains ["add category", "new category", "create category"] t

/-- `QUERY_PATTERNS = [r"how much|show|list|expenses?|spending|summary|tell me|what did i"]`.
The alternative `expenses?` (optional trailing `s`) has a match exactly when
the substring `expense` occurs. -/
def query_match (t : Str) : Bool :=
  anyContains ["how much", "show", "list"] t
  || containsL (lit "expense") t
  || anyContains ["spending", "summary", "tell me", "what did i"] t

/-- `EXPENSE_PATTERNS = [r"spent|paid|bought|expense|cost|charged"]`. -/
def expense_match (t : Str) : Bool :=
  anyContains ["spent", "paid", "bought", "expense", "cost", "charged"] t

end IntentClassifier

section AmountParsing

/-- Digit run split: (`takeWhile` digits, remainder). -/
def digitsTake (t : Str) : Str × Str := (t.takeWhile isDigitB, t.dropWhile isDigitB)

/-- Greedy `(?:,\d{3})*`: repeatedly consume a comma followed by exactly
three digits. -/
def commaGroupsF : ℕ → Str → Str × Str
  | 0, t => ([], t)
  | f + 1, t =>
    match t with
    | ',' :: d1 :: d2 :: d3 :: rest =>
      if isDigitB d1 && isDigitB d2 && isDigitB d3 then
        let (c, r) := commaGroupsF f rest
        (',' :: d1 :: d2 :: d3 :: c, r)
      else ([], t)
    | _ => ([], t)

/-- Greedy `(?:\.\d{1,2})?`: a dot followed by one or two digits (two when
available). -/
def decimalTake (t : Str) : Str × Str :=
  match t with
  | '.' :: rest =>
    (match rest.takeWhile isDigitB with
     | [] => ([], t)
     | [d] => (['.', d], rest.drop 1)
     | d1 :: d2 :: _ => (['.', d1, d2], rest.drop 2))
  | _ => ([], t)

/-- The shared amount sub-pattern `\d+(?:,\d{3})*(?:\.\d{1,2})?` matched at
the front of the text: (matched characters, remainder). Greedy matching is
exact here: in every enclosing pattern the next element is whitespace, a
currency word/symbol, or the end, never a digit, comma or dot. -/
def numCoreAt (t : Str) : Option (Str × Str) :=
  let (ds, r1) := digitsTake t
  if ds.isEmpty then none
  else
    let (cg, r2) := commaGroupsF r1.length r1
    let (dc, r3) := decimalTake r2
    some (ds ++ cg ++ dc, r3)

def symChars : List Char := ['₹', '$', '€', '£', '¥']

/-- Amount pattern 1: `[₹$€£¥]\s*(\d+(?:,\d{3})*(?:\.\d{1,2})?)`,
at one position; yields group 1. -/
def p1At (t : Str) : Option Str :=
  match t with
  | c :: cs =>
    if c ∈ symChars then (numCoreAt (cs.dropWhile pySpace)).map (·.1) else none
  | [] => none

/-- Amount pattern 2: `(\d+(?:,\d{3})*(?:\.\d{1,2})?)\s*[₹$€£¥]`. -/
def p2At (t : Str) : Option Str :=
  (numCoreAt t).bind fun p =>
    match p.2.dropWhile pySpace with
    | c :: _ => if c ∈ symChars then some p.1 else none
    | [] => none

/-- Alternatives of `(?:rs\.?|inr|usd|eur|gbp|aed)`; `rs.` before `rs`
mirrors the greedy optional dot (with backtracking to plain `rs`). -/
def amountCurrencyWords : List String := ["rs.", "rs", "inr", "usd", "eur", "gbp", "aed"]

/-- Amount pattern 3: `(?:rs\.?|inr|usd|eur|gbp|aed)\s*(\d+(?:,\d{3})*(?:\.\d{1,2})?)`. -/
def p3At (t : Str) : Option Str :=
  amountCurrencyWords.findSome? fun w =>
    (stripLit w.data t).bind fun r => (numCoreAt (r.dropWhile pySpace)).map (·.1)

/-- Alternatives of `(?:rs\.?|rupees?|dollars?|euros?|pounds?|dirhams?)`
with each optional `s`/`.` expanded (longer form first = greedy). -/
def amountSuffixWords : List String :=
  ["rs.", "rs", "rupees", "rupee", "dollars", "dollar", "euros", "euro",
   "pounds", "pound", "dirhams", "dirham"]

/-- Amount pattern 4:
`(\d+(?:,\d{3})*(?:\.\d{1,2})?)\s*(?:rs\.?|rupees?|dollars?|euros?|pounds?|dirhams?)`. -/
def p4At (t : Str) : Option Str :=
  (numCoreAt t).bind fun p =>
    let r1 := p.2.dropWhile pySpace
    if amountSuffixWords.any (fun w => startsWithL w.data r1) then some p.1 else none

/-- Amount pattern 5 (bare-number fallback): `(\d+(?:,\d{3})*(?:\.\d{1,2})?)`. -/
def p5At (t : Str) : Option Str := (numCoreAt t).map (·.1)

def natOfDigits (s : Str) : ℕ := s.foldl (fun n c => n * 10 + (c.toNat - 48)) 0

/-- `Decimal(amount_str)` after `amount_str.replace(",", "")`: exact value of
a digit string with an optional fractional part; `none` models
`InvalidOperation`. -/
def decOfStr (s : Str) : Option ℚ :=
  let s1 := s.filter fun c => c ≠ ','
  let ip := s1.takeWhile isDigitB
  let r := s1.dropWhile isDigitB
  if ip.isEmpty then none
  else
    match r with
    | [] => some (natOfDigits ip : ℚ)
    | '.' :: fs =>
      if fs.all isDigitB then
        some ((natOfDigits ip : ℚ) + (natOfDigits fs : ℚ) / (10 : ℚ) ^ fs.length)
      else none
    | _ => none

/-- `currency.parse_amount`: try the five `AMOUNT_PATTERNS` in order
(each searched case-insensitively over the whole text), convert the first
capture; on conversion failure fall through to the next pattern. -/
def parse_amount (t : Str) : Option ℚ :=
  ((scanFirst p1At (lowerL t)).bind decOfStr).orElse fun _ =>
  ((scanFirst p2At (lowerL t)).bind decOfStr).orElse fun _ =>
  ((scanFirst p3At (lowerL t)).bind decOfStr).orElse fun _ =>
  ((scanFirst p4At (lowerL t)).bind decOfStr).orElse fun _ =>
  ((scanFirst p5At (lowerL t)).bind decOfStr)

end AmountParsing

section CurrencyDetection

/-- `CURRENCY_SYMBOLS`, in Python dict insertion order. -/
def CURRENCY_SYMBOLS : List (String × String) :=
  [("₹", "INR"), ("rs", "INR"), ("rs.", "INR"), ("inr", "INR"),
   ("rupees", "INR"), ("rupee", "INR"),
   ("$", "USD"), ("usd", "USD"), ("dollars", "USD"), ("dollar", "USD"),
   ("€", "EUR"), ("eur", "EUR"), ("euros", "EUR"), ("euro", "EUR"),
   ("£", "GBP"), ("gbp", "GBP"), ("pounds", "GBP"), ("pound", "GBP"),
   ("¥", "JPY"), ("jpy", "JPY"), ("yen", "JPY"),
   ("aed", "AED"), ("dirhams", "AED"), ("dirham", "AED")]

/-- `currency.detect_currency`: the symbol loop over the raw text, then the
word loop over the lower-cased text in dict order, then the `INR` default. -/
def detect_currency (t : Str) : String :=
  if containsL (lit "₹") t then "INR"
  else if containsL (lit "$") t then "USD"
  else if containsL (lit "€") t then "EUR"
  else if containsL (lit "£") t then "GBP"
  else if containsL (lit "¥") t then "JPY"
  else
    match CURRENCY_SYMBOLS.find? (fun p => containsL p.1.data (lowerL t)) with
    | some p => p.2
    | none => "INR"

end CurrencyDetection

/-- `TextParser._detect_intent`: fixed-priority rule groups, then the
has-an-amount fallback (`if parse_amount(text):` — Python truthiness, so a
zero amount does not count). -/
def detect_intent (t : Str) : Intent :=
  if delete_match t then .deleteExpense
  else if settle_match t then .settleDebt
  else if debt_check_match t then .checkDebts
  else if split_match t then .splitPayment
  else if list_cat_match t then .listCategories
  else if add_cat_match t then .addCategory
  else if query_match t then .queryExpenses
  else if expense_match t then .addExpense
  else
    match parse_amount t with
    | some q => if q = 0 then .unknown else .addExpense
    | none => .unknown

section DescriptionExtraction

/-- Framework for `re.sub(pattern, "", text)`: scan left to right; at each
position try the positional matcher (which returns the number of characters
consumed, at least one); on a match drop those characters and continue after
them, remembering the last consumed character (match positions further right
still see their original left neighbour for `\b`). -/
def subAllF (m : Option Char → Str → Option ℕ) : ℕ → Option Char → Str → Str
  | 0, _, t => t
  | _ + 1, _, [] => []
  | f + 1, prev, c :: cs =>
    match m prev (c :: cs) with
    | some n => subAllF m f (some ((c :: cs).getD (n - 1) c)) ((c :: cs).drop n)
    | none => c :: subAllF m f (some c) cs

def subAll (m : Option Char → Str → Option ℕ) (t : Str) : Str :=
  subAllF m t.length none t

/-- Description sub 1: `[₹$€£¥]\s*\d+(?:,\d{3})*(?:\.\d{1,2})?` (length consumed). -/
def descSub1 (_ : Option Char) (t : Str) : Option ℕ :=
  match t with
  | c :: cs =>
    if c ∈ symChars then
      (numCoreAt (cs.dropWhile pySpace)).map fun p => t.length - p.2.length
    else none
  | [] => none

/-- Description sub 2: `\d+(?:,\d{3})*(?:\.\d{1,2})?\s*[₹$€£¥]`. -/
def descSub2 (_ : Option Char) (t : Str) : Option ℕ :=
  (numCoreAt t).bind fun p =>
    match p.2.dropWhile pySpace with
    | c :: r =>
      if c ∈ symChars then some (t.length - r.length) else none
    | [] => none

/-- Description sub 3: `(?:rs\.?|inr|usd|eur)\s*\d+`, case-insensitive. -/
def descSub3 (_ : Option Char) (t : Str) : Option ℕ :=
  ["rs.", "rs", "inr", "usd", "eur"].findSome? fun w =>
    (stripLitCI w.data t).bind fun r =>
      let r1 := r.dropWhile pySpace
      let ds := r1.takeWhile isDigitB
      if ds.isEmpty then none else some (t.length - (r1.dropWhile isDigitB).length)

/-- Description sub 4: `\d+\s*(?:rs\.?|rupees?|dollars?)`, case-insensitive. -/
def descSub4 (_ : Option Char) (t : Str) : Option ℕ :=
  let ds := t.takeWhile isDigitB
  if ds.isEmpty then none
  else
    let r1 := (t.dropWhile isDigitB).dropWhile pySpace
    ["rs.", "rs", "rupees", "rupee", "dollars", "dollar"].findSome? fun w =>
      (stripLitCI w.data r1).map fun r2 => t.length - r2.length

/-- Description sub 5: `\b(spent|paid|bought|for|on)\b`, case-insensitive. -/
def descSubVerb (prev : Option Char) (t : Str) : Option ℕ :=
  if boundaryOk prev then
    ["spent", "paid", "bought", "for", "on"].findSome? fun w =>
      (stripLitCI w.data t).bind fun r =>
        if headNotWord r then some (t.length - r.length) else none
  else none

/-- Description sub 6: `\b(today|yesterday|last week|this week|this month)\b`,
case-insensitive. -/
def descSubTime (prev : Option Char) (t : Str) : Option ℕ :=
  if boundaryOk prev then
    ["today", "yesterday", "last week", "this week", "this month"].findSome? fun w =>
      (stripLitCI w.data t).bind fun r =>
        if headNotWord r then some (t.length - r.length) else none
  else none

/-- `re.sub(r"\s+", " ", desc)`: every whitespace character becomes a space,
then consecutive spaces collapse. -/
def wsToSpace (t : Str) : Str := t.map fun c => if pySpace c then ' ' else c

def dedupSpaces : Str → Str
  | [] => []
  | [c] => [c]
  | a :: b :: rest =>
    if a = ' ' && b = ' ' then dedupSpaces (b :: rest) else a :: dedupSpaces (b :: rest)

/-- `str.strip()` (after whitespace collapsing everything is a plain space). -/
def trimBoth (t : Str) : Str :=
  ((t.dropWhile pySpace).reverse.dropWhile pySpace).reverse

/-- `TextParser._extract_description`: strip currency-adjacent amounts, spend
verbs and time words from the raw text, collapse whitespace, empty becomes
absent. -/
def extract_description (t : Str) : Option Str :=
  let d1 := subAll descSub1 t
  let d2 := subAll descSub2 d1
  let d3 := subAll descSub3 d2
  let d4 := subAll descSub4 d3
  let d5 := subAll descSubVerb d4
  let d6 := subAll descSubTime d5
  let d7 := trimBoth (dedupSpaces (wsToSpace d6))
  if d7.isEmpty then none else some d7

end DescriptionExtraction

section CategoryDetection

/-- `TextParser.CATEGORY_KEYWORDS`, in Python dict insertion order. -/
def CATEGORY_KEYWORDS : List (String × List String) :=
  [("food",
    ["food", "lunch", "dinner", "breakfast", "snack", "meal", "eat", "eating",
     "restaurant", "cafe", "coffee", "tea", "swiggy", "zomato", "ubereats", "doordash",
     "sandwich", "burger", "pizza", "pasta", "noodles", "rice", "curry", "biryani",
     "dosa", "idli", "samosa", "paratha", "roti", "dal", "thali", "momos",
     "chicken", "mutton", "fish", "paneer", "salad", "soup", "bread",
     "chai", "lassi", "juice", "smoothie", "milkshake", "beer", "wine", "drinks",
     "ice cream", "icecream", "cake", "dessert", "sweet", "mithai", "gulab jamun",
     "mcdonalds", "kfc", "dominos", "subway", "starbucks", "ccd", "mcd"]),
   ("transport",
    ["uber", "ola", "cab", "taxi", "auto", "rickshaw", "bus", "metro", "train",
     "fuel", "petrol", "diesel", "gas", "transport", "travel", "flight", "ticket",
     "rapido", "bike", "scooter", "parking", "toll", "lyft"]),
   ("shopping",
    ["shopping", "amazon", "flipkart", "myntra", "clothes", "shoes", "electronics",
     "buy", "purchase", "mall", "store", "market", "bazaar", "grocery", "groceries",
     "bigbasket", "blinkit", "zepto", "instamart", "dmart"]),
   ("bills",
    ["bill", "electricity", "water", "gas", "internet", "wifi", "phone", "recharge",
     "rent", "emi", "loan", "insurance", "tax", "maintenance", "society"]),
   ("entertainment",
    ["movie", "netflix", "spotify", "amazon prime", "hotstar", "game", "gaming",
     "concert", "show", "subscription", "youtube", "premium", "theatre", "cinema",
     "pvr", "inox", "bookmyshow"]),
   ("health",
    ["medicine", "doctor", "hospital", "pharmacy", "medical", "health", "gym",
     "fitness", "yoga", "clinic", "lab", "test", "checkup", "apollo", "1mg",
     "pharmeasy", "netmeds"])]

/-- `str.capitalize`: first character upper-cased, the rest lower-cased. -/
def pyCapitalize (s : String) : String :=
  match s.data with
  | [] => ""
  | c :: cs => String.mk (pyUpper c :: cs.map pyLower)

/-- `TextParser._detect_category`: first category (in table order) with any
keyword contained in the lower-cased text. -/
def detect_category (t : Str) : Option String :=
  (CATEGORY_KEYWORDS.find? fun p => p.2.any fun kw => containsL kw.data t).map
    fun p => pyCapitalize p.1

end CategoryDetection

section DateExtraction

/-- A `datetime.date` value. -/
structure PyDate where
  year : ℕ
  month : ℕ
  day : ℕ
deriving DecidableEq, Repr

def isLeap (y : ℕ) : Bool := y % 4 = 0 && (y % 100 ≠ 0 || y % 400 = 0)

def daysInMonth (y m : ℕ) : ℕ :=
  if m = 2 then (if isLeap y then 29 else 28)
  else if m = 4 || m = 6 || m = 9 || m = 11 then 30
  else 31

/-- `datetime.date(y, m, d)`: `none` models the `ValueError` of an invalid
calendar date. -/
def dateOf (y m d : ℕ) : Option PyDate :=
  if 1 ≤ m ∧ m ≤ 12 ∧ 1 ≤ d ∧ d ≤ daysInMonth y m then some ⟨y, m, d⟩ else none

/-- `today - timedelta(days=1)`. -/
def datePred (d : PyDate) : PyDate :=
  if 2 ≤ d.day then ⟨d.year, d.month, d.day - 1⟩
  else if 2 ≤ d.month then ⟨d.year, d.month - 1, daysInMonth d.year (d.month - 1)⟩
  else ⟨d.year - 1, 12, 31⟩

/-- Month-name alternation `(jan|feb|mar|apr|may|jun|jul|aug|sep|oct|nov|dec)`
in pattern order. -/
def monthNames : List (String × ℕ) :=
  [("jan", 1), ("feb", 2), ("mar", 3), ("apr", 4), ("may", 5), ("jun", 6),
   ("jul", 7), ("aug", 8), ("sep", 9), ("oct", 10), ("nov", 11), ("dec", 12)]

def monthAt (t : Str) : Option ℕ :=
  (monthNames.find? fun p => startsWithL p.1.data t).map (·.2)

/-- Greedy optional ordinal suffix `(?:st|nd|rd|th)?`. -/
def ordSuffixStrip (t : Str) : Str :=
  (((stripLit (lit "st") t).orElse fun _ =>
    (stripLit (lit "nd") t).orElse fun _ =>
    (stripLit (lit "rd") t).orElse fun _ =>
    stripLit (lit "th") t)).getD t

/-- The date pattern
`(\d{1,2})(?:st|nd|rd|th)?\s*(?:of\s*)?(jan|feb|...|dec)?` at one position:
one or two digits (greedy), optional ordinal suffix, whitespace, optional
`of` plus whitespace (consuming `of` never steals the start of a month name,
as no month name begins with `of`), optional month name. A match exists
exactly at positions starting with a digit. -/
def dayMonthAt (t : Str) : Option (ℕ × Option ℕ) :=
  match t with
  | c :: cs =>
    if isDigitB c then
      let p : Str × Str :=
        match cs with
        | c2 :: cs2 => if isDigitB c2 then ([c, c2], cs2) else ([c], cs)
        | [] => ([c], ([] : Str))
      let r1 := ordSuffixStrip p.2
      let r2 := r1.dropWhile pySpace
      let r3 :=
        match stripLit (lit "of") r2 with
        | some r => r.dropWhile pySpace
        | none => r2
      some (natOfDigits p.1, monthAt r3)
    else none
  | [] => none

def dayMonthSearch (t : Str) : Option (ℕ × Option ℕ) := scanFirst dayMonthAt t

/-- `TextParser._extract_date` (over the lower-cased text, with the current
date injected): `yesterday` wins, else the leftmost day/month match builds a
date from the current year when a month name is present, silently dropping
invalid dates; otherwise absent. The dead `months.get` default is not
reachable since the month group only matches listed names. -/
def extract_date (today : PyDate) (t : Str) : Option PyDate :=
  if containsL (lit "yesterday") t then some (datePred today)
  else
    match dayMonthSearch t with
    | some (d, some m) => dateOf today.year m d
    | some (_, none) => none
    | none => none

end DateExtraction

/-- `TextParser._extract_time_range`: `TIME_PATTERNS` in dict order, first
match wins (patterns searched case-insensitively; `this_week` also matches
the bare word `week`, `this_month` the bare word `month`). -/
def extract_time_range (t : Str) : Option String :=
  if wordOccursL (lit "today") (lowerL t) then some "today"
  else if wordOccursL (lit "yesterday") (lowerL t) then some "yesterday"
  else if wordOccursL (lit "this week") (lowerL t) || wordOccursL (lit "week") (lowerL t) then
    some "this_week"
  else if wordOccursL (lit "last week") (lowerL t) then some "last_week"
  else if wordOccursL (lit "this month") (lowerL t) || wordOccursL (lit "month") (lowerL t) then
    some "this_month"
  else if wordOccursL (lit "last month") (lowerL t) then some "last_month"
  else none

section SplitInfo

/-- The split-count pattern
`(?:split|divide)\s*(?:with|among|between)?\s*(\d+)\s*people` at one position
of the lower-cased text (the search is case-insensitive). The optional
connective is tried greedily in alternation order, then empty. Greedy `\s*`
and `\d+` are exact here (a space never begins a connective, digit run or
`people`, and a digit never begins ` `-or-`people`). -/
def splitNAt (t : Str) : Option ℕ :=
  match (stripLit (lit "split") t).orElse fun _ => stripLit (lit "divide") t with
  | none => none
  | some r =>
    let r1 := r.dropWhile pySpace
    let tryNum : Str → Option ℕ := fun r2 =>
      let r3 := r2.dropWhile pySpace
      let ds := r3.takeWhile isDigitB
      if ds.isEmpty then none
      else if startsWithL (lit "people") (((r3.dropWhile isDigitB).dropWhile pySpace)) then
        some (natOfDigits ds)
      else none
    ((stripLit (lit "with") r1).bind tryNum).orElse fun _ =>
    ((stripLit (lit "among") r1).bind tryNum).orElse fun _ =>
    ((stripLit (lit "between") r1).bind tryNum).orElse fun _ =>
    tryNum r1

/-- `[A-Z][a-z]+` at one position: (the name, the remainder). -/
def nameTok (t : Str) : Option (Str × Str) :=
  match t with
  | c :: cs =>
    if isUpperB c then
      let ls := cs.takeWhile isLowerB
      if ls.isEmpty then none else some (c :: ls, cs.dropWhile isLowerB)
    else none
  | [] => none

/-- The separator `\s*(?:,|and)\s*` at one position (also the pattern of the
`re.split` on the captured group): remainder after it. -/
def sepAt (t : Str) : Option Str :=
  match t.dropWhile pySpace with
  | ',' :: rest => some (rest.dropWhile pySpace)
  | 'a' :: 'n' :: 'd' :: rest => some (rest.dropWhile pySpace)
  | _ => none

/-- Greedy `(?:\s*(?:,|and)\s*[A-Z][a-z]+)*`: consume separator-name pairs
while both parts match (an iteration whose name fails is backtracked whole). -/
def sepNameStar : ℕ → Str → Str
  | 0, t => t
  | f + 1, t =>
    match sepAt t with
    | some r =>
      match nameTok r with
      | some p => sepNameStar f p.2
      | none => t
    | none => t

/-- The named-people pattern
`with\s+([A-Z][a-z]+(?:\s*(?:,|and)\s*[A-Z][a-z]+)*)` at one position of the
raw text: the captured group (group 1) on success. -/
def namesCapAt (t : Str) : Option Str :=
  (stripLit (lit "with") t).bind fun r =>
    match r with
    | s :: _ =>
      if pySpace s then
        let r1 := r.dropWhile pySpace
        (nameTok r1).map fun p =>
          let rest := sepNameStar p.2.length p.2
          r1.take (r1.length - rest.length)
      else none
    | [] => none

/-- `re.split(r"\s*(?:,|and)\s*", people_str)`: split on leftmost
non-overlapping separator matches. -/
def splitOnSepsF : ℕ → Str → Str → List Str
  | 0, acc, t => [acc.reverse ++ t]
  | _ + 1, acc, [] => [acc.reverse]
  | f + 1, acc, c :: cs =>
    match sepAt (c :: cs) with
    | some rest => acc.reverse :: splitOnSepsF f [] rest
    | none => splitOnSepsF f (c :: acc) cs

def splitOnSeps (t : Str) : List Str := splitOnSepsF t.length [] t

/-- `TextParser._extract_split_info`: first the count pattern (searched
case-insensitively over the raw text), else the named-people pattern
(case-sensitive), whose capture is re-split into names and returned together
with `len(people) + 1`. -/
def extract_split_info (t : Str) : Option ℕ × Option (List Str) :=
  match scanFirst splitNAt (lowerL t) with
  | some n => (some n, none)
  | none =>
    match scanFirst namesCapAt t with
    | some cap =>
      let people := splitOnSeps cap
      (some (people.length + 1), some people)
    | none => (none, none)

end SplitInfo

section PersonName

/-- `([A-Z][a-z]+)\s+(?:paid|settled|cleared)` at one position: the name. -/
def personVerbAt (t : Str) : Option Str :=
  (nameTok t).bind fun p =>
    match p.2 with
    | s :: _ =>
      if pySpace s then
        let r1 := p.2.dropWhile pySpace
        if startsWithL (lit "paid") r1 || startsWithL (lit "settled") r1
            || startsWithL (lit "cleared") r1 then
          some p.1
        else none
      else none
    | [] => none

/-- `(?:from|by)\s+([A-Z][a-z]+)` at one position: the name. -/
def personFromAt (t : Str) : Option Str :=
  match (stripLit (lit "from") t).orElse fun _ => stripLit (lit "by") t with
  | none => none
  | some r =>
    match r with
    | s :: _ =>
      if pySpace s then (nameTok (r.dropWhile pySpace)).map (·.1) else none
    | [] => none

/-- `TextParser._extract_person_name` over the raw text. -/
def extract_person_name (t : Str) : Option Str :=
  (scanFirst personVerbAt t).orElse fun _ => scanFirst personFromAt t

end PersonName

section Parse

/-- `text_parser.ParsedMessage` with its field defaults. -/
structure ParsedMessage where
  intent : Intent
  amount : Option ℚ := none
  currency : String := "INR"
  description : Option Str := none
  category_hint : Option String := none
  expense_date : Option PyDate := none
  split_count : Option ℕ := none
  split_people : Option (List Str) := none
  person_name : Option Str := none
  time_range : Option String := none
  raw_text : Str := []
deriving DecidableEq, Repr

/-- `TextParser.parse` with the current date injected: lower-case and strip,
short-circuit help, detect the intent, run every extractor, and attach split
or person entities only for the matching intents. -/
def parse (today : PyDate) (text : String) : ParsedMessage :=
  let t : Str := text.data
  let text_lower := trimBoth (lowerL t)
  if text_lower = lit "help" ∨ text_lower = lit "?" ∨ text_lower = lit "commands" then
    { intent := .help, raw_text := t }
  else
    let intent := detect_intent text_lower
    let si : Option ℕ × Option (List Str) :=
      if intent = .splitPayment then extract_split_info t else (none, none)
    { intent := intent
      amount := parse_amount t
      currency := detect_currency t
      description := extract_description t
      category_hint := detect_category text_lower
      expense_date := extract_date today text_lower
      split_count := si.1
      split_people := si.2
      person_name :=
        if intent = .settleDebt ∨ intent = .checkDebts then extract_person_name t else none
      time_range := extract_time_range text_lower
      raw_text := t }

end Parse

section SplitAgent

/-- `ROUND_HALF_EVEN` of the default `decimal` context, rounding a scaled
value to an integer: nearest integer, ties to the even neighbour. -/
def roundHalfEven (y : ℚ) : ℤ :=
  if y - ⌊y⌋ < 1 / 2 then ⌊y⌋
  else if 1 / 2 < y - ⌊y⌋ then ⌊y⌋ + 1
  else if ⌊y⌋ % 2 = 0 then ⌊y⌋ else ⌊y⌋ + 1

/-- Rounding to the default `decimal` context precision of 28 significant
digits: the exact value is scaled so that its leading 28 digits lie left of
the point (the quantum is `10 ^ (adjusted exponent - 27)`), rounded
half-even to an integer, and scaled back. A value already expressible in 28
significant digits is returned unchanged (`round28_eq_self`). -/
def round28 (x : ℚ) : ℚ :=
  if x = 0 then 0
  else ((roundHalfEven (x / (10 : ℚ) ^ (Int.log 10 |x| - 27)) : ℤ) : ℚ)
    * (10 : ℚ) ^ (Int.log 10 |x| - 27)

/-- Python `Decimal` division under the default context: the exact quotient,
rounded to context precision. -/
def decDiv (a b : ℚ) : ℚ := round28 (a / b)

/-- Python `Decimal` subtraction under the default context. -/
def decSub (a b : ℚ) : ℚ := round28 (a - b)

/-- Python `Decimal` addition under the default context. -/
def decAdd (a b : ℚ) : ℚ := round28 (a + b)

/-- A value expressible with at most 28 significant decimal digits, i.e. one
the default context never rounds. -/
def representable28 (x : ℚ) : Prop :=
  ∃ m e : ℤ, |m| < 10 ^ 28 ∧ x = (m : ℚ) * (10 : ℚ) ^ e

/-- `SplitResult` of the split calculator (`SplitAgent.create_split_expense`
lines 47-50): per-person amount is the context-rounded quotient, the user's
share is one per-person unit, and what others owe is obtained by
(context-rounded) subtraction. -/
structure SplitResult where
  total_amount : ℚ
  user_share : ℚ
  others_owe : ℚ
  per_person : ℚ
  participant_count : ℕ
deriving DecidableEq, Repr

def computeSplit (total : ℚ) (n : ℕ) : SplitResult :=
  let per_person := decDiv total (n : ℚ)
  let user_share := per_person
  let others_owe := decSub total user_share
  { total_amount := total
    user_share := user_share
    others_owe := others_owe
    per_person := per_person
    participant_count := n }

/-- Outcome of `SplitAgent.create_split_expense` up to the arithmetic: the
two early-return error messages, or the split computation that the handler
performs (`per_person = total_amount / Decimal(split_count)` — in Python a
`split_count` of zero raises there). -/
inductive SplitHandlerOutcome
  | noAmount
  | needPeople
  | splits (r : SplitResult)
deriving DecidableEq, Repr

def create_split_expense (p : ParsedMessage) : SplitHandlerOutcome :=
  match p.amount with
  | none => .noAmount
  | some total =>
    if p.split_count = none ∧ p.split_people = none then .needPeople
    else
      let split_count : ℕ :=
        match p.split_count with
        | some c => c
        | none => (p.split_people.getD []).length + 1
      .splits (computeSplit total split_count)

/-- The participant count the handler divides by, when it reaches the
division. -/
def dividesBy : SplitHandlerOutcome → Option ℕ
  | .splits r => some r.participant_count
  | _ => none

/-- The total the handler divides, when it reaches the division. -/
def dividesTotal : SplitHandlerOutcome → Option ℚ
  | .splits r => some r.total_amount
  | _ => none

end SplitAgent

section Claims

/-- C1: for the input text `split 2000 with 4 people`, the intent classifier
returns SplitPayment and never AddExpense: the split rule group is tested
before the spend-verb and has-a-number rule groups in the fixed priority
order of `_detect_intent`. -/
theorem claim1_split_beats_number :
    detect_intent (lit "split 2000 with 4 people") = Intent.splitPayment ∧
    detect_intent (lit "split 2000 with 4 people") ≠ Intent.addExpense := by
  decide

theorem roundHalfEven_intCast (z : ℤ) : roundHalfEven (z : ℚ) = z := by
  simp [roundHalfEven]

theorem int_log_eq_of {x : ℚ} {e : ℤ} (hx : 0 < x)
    (h1 : (10 : ℚ) ^ e ≤ x) (h2 : x < (10 : ℚ) ^ (e + 1)) : Int.log 10 x = e := by
  have hb : 1 < (10 : ℕ) := by norm_num
  have hc : ((10 : ℕ) : ℚ) = (10 : ℚ) := by norm_num
  have hle : e ≤ Int.log 10 x := by
    rw [← Int.zpow_le_iff_le_log hb hx, hc]
    exact h1
  have hlt : Int.log 10 x < e + 1 := by
    rw [← Int.lt_zpow_iff_log_lt hb hx, hc]
    exact h2
  omega

/-- The default context never changes a value that already fits in 28
significant digits: its quantum divides the value, so the half-even
rounding is the identity on it. -/
theorem round28_eq_self (x : ℚ) (h : representable28 x) : round28 x = x := by
  obtain ⟨m, e, hm, rfl⟩ := h
  by_cases hx : (m : ℚ) * (10 : ℚ) ^ e = 0
  · rw [round28, if_pos hx, hx]
  · rw [round28, if_neg hx]
    have hm0 : m ≠ 0 := by
      rintro rfl
      simp at hx
    have hzpos : (0 : ℚ) < (10 : ℚ) ^ e := zpow_pos (by norm_num) e
    have habs : |(m : ℚ) * (10 : ℚ) ^ e| = |(m : ℚ)| * (10 : ℚ) ^ e := by
      rw [abs_mul, abs_of_pos hzpos]
    set L := Int.log 10 |(m : ℚ) * (10 : ℚ) ^ e| with hL
    have hLe : L ≤ e + 27 := by
      have hlow : (10 : ℚ) ^ L ≤ |(m : ℚ) * (10 : ℚ) ^ e| := by
        have := Int.zpow_log_le_self (b := 10) (by norm_num) (abs_pos.mpr hx)
        simpa using this
      have hup : |(m : ℚ) * (10 : ℚ) ^ e| < (10 : ℚ) ^ (e + 28) := by
        rw [habs]
        have hmq : |(m : ℚ)| < (10 : ℚ) ^ (28 : ℤ) := by
          rw [← Int.cast_abs]
          calc ((|m| : ℤ) : ℚ) < ((10 ^ 28 : ℤ) : ℚ) := by exact_mod_cast hm
          _ = (10 : ℚ) ^ (28 : ℤ) := by norm_num
        calc |(m : ℚ)| * (10 : ℚ) ^ e < (10 : ℚ) ^ (28 : ℤ) * (10 : ℚ) ^ e :=
              mul_lt_mul_of_pos_right hmq hzpos
        _ = (10 : ℚ) ^ (e + 28) := by
              rw [← zpow_add₀ (by norm_num : (10 : ℚ) ≠ 0)]
              ring_nf
      have hcmp : (10 : ℚ) ^ L < (10 : ℚ) ^ (e + 28) := lt_of_le_of_lt hlow hup
      have := (zpow_lt_zpow_iff_right₀ (by norm_num : (1 : ℚ) < 10)).mp hcmp
      omega
    have hknat : ((e - L + 27).toNat : ℤ) = e - L + 27 := Int.toNat_of_nonneg (by omega)
    have hdiv : ((m : ℚ) * (10 : ℚ) ^ e) / (10 : ℚ) ^ (L - 27)
        = ((m * 10 ^ (e - L + 27).toNat : ℤ) : ℚ) := by
      push_cast
      rw [← zpow_natCast (10 : ℚ) (e - L + 27).toNat, hknat]
      have hexp : e - L + 27 + (L - 27) = e := by omega
      rw [div_eq_iff (by positivity : ((10 : ℚ) ^ (L - 27)) ≠ 0)]
      rw [mul_assoc, ← zpow_add₀ (by norm_num : (10 : ℚ) ≠ 0), hexp]
    rw [hdiv, roundHalfEven_intCast]
    push_cast
    rw [← zpow_natCast (10 : ℚ) (e - L + 27).toNat, hknat]
    have hexp : e - L + 27 + (L - 27) = e := by omega
    rw [mul_assoc, ← zpow_add₀ (by norm_num : (10 : ℚ) ≠ 0), hexp]

/-- Evaluation of `round28` for values in `[10^27, 10^28)` whose excess over
the integer `m` is below one half: the quantum is 1 and the half-even
rounding is plain floor. -/
theorem round28_eq_floor_of (x : ℚ) (m : ℤ) (hx : 0 < x)
    (h1 : (10 : ℚ) ^ (27 : ℤ) ≤ x) (h2 : x < (10 : ℚ) ^ (28 : ℤ))
    (hm : (m : ℚ) ≤ x) (hm2 : x < (m : ℚ) + 1 / 2) : round28 x = (m : ℚ) := by
  have hx0 : x ≠ 0 := ne_of_gt hx
  have habs : |x| = x := abs_of_pos hx
  have hlog : Int.log 10 |x| = 27 := by
    rw [habs]
    exact int_log_eq_of hx h1 (by norm_num at h2 ⊢; exact h2)
  have hfl : ⌊x⌋ = m := by
    have : (m : ℚ) ≤ x ∧ x < m + 1 := ⟨hm, by linarith⟩
    exact_mod_cast Int.floor_eq_iff.mpr this
  have hrhe : roundHalfEven x = m := by
    rw [roundHalfEven, hfl, if_pos (by linarith)]
  rw [round28, if_neg hx0, hlog]
  norm_num [hrhe]

/-- C2 (counterexample): under the default `decimal` context (28 significant
digits), splitting the parseable total `10^28 + 0.01` two ways rounds the
quotient and the difference to `5 * 10^27` each, so the user's share is not
`total / 2` and `user_share + others_owe` is `10^28`, not the total — the
claimed exact identity fails. -/
theorem claim2_rounding_counterexample :
    (computeSplit (10 ^ 28 + 1 / 100 : ℚ) 2).user_share ≠ (10 ^ 28 + 1 / 100 : ℚ) / 2 ∧
    (computeSplit (10 ^ 28 + 1 / 100 : ℚ) 2).user_share
        + (computeSplit (10 ^ 28 + 1 / 100 : ℚ) 2).others_owe ≠ (10 ^ 28 + 1 / 100 : ℚ) ∧
    decAdd ((computeSplit (10 ^ 28 + 1 / 100 : ℚ) 2).user_share)
        ((computeSplit (10 ^ 28 + 1 / 100 : ℚ) 2).others_owe) ≠ (10 ^ 28 + 1 / 100 : ℚ) := by
  have hu : (computeSplit (10 ^ 28 + 1 / 100 : ℚ) 2).user_share = 5 * 10 ^ 27 := by
    show round28 ((10 ^ 28 + 1 / 100 : ℚ) / ((2 : ℕ) : ℚ)) = 5 * 10 ^ 27
    rw [show (10 ^ 28 + 1 / 100 : ℚ) / ((2 : ℕ) : ℚ) = 5 * 10 ^ 27 + 1 / 200 by norm_num]
    have := round28_eq_floor_of (5 * 10 ^ 27 + 1 / 200) (5 * 10 ^ 27)
      (by norm_num) (by norm_num) (by norm_num) (by push_cast; norm_num)
      (by push_cast; norm_num)
    rw [this]
    push_cast
    ring
  have ho : (computeSplit (10 ^ 28 + 1 / 100 : ℚ) 2).others_owe = 5 * 10 ^ 27 := by
    have hdef : (computeSplit (10 ^ 28 + 1 / 100 : ℚ) 2).others_owe
        = decSub (10 ^ 28 + 1 / 100 : ℚ) ((computeSplit (10 ^ 28 + 1 / 100 : ℚ) 2).user_share) :=
      rfl
    rw [hdef, hu, decSub,
      show (10 ^ 28 + 1 / 100 : ℚ) - 5 * 10 ^ 27 = 5 * 10 ^ 27 + 1 / 100 by ring]
    have := round28_eq_floor_of (5 * 10 ^ 27 + 1 / 100) (5 * 10 ^ 27)
      (by norm_num) (by norm_num) (by norm_num) (by push_cast; norm_num)
      (by push_cast; norm_num)
    rw [this]
    push_cast
    ring
  refine ⟨?_, ?_, ?_⟩
  · rw [hu]
    norm_num
  · rw [hu, ho]
    norm_num
  · rw [hu, ho, decAdd,
      show (5 * 10 ^ 27 + 5 * 10 ^ 27 : ℚ) = 10 ^ 28 by ring]
    rw [round28_eq_self (10 ^ 28) ⟨1, 28, by norm_num, by norm_num⟩]
    norm_num

/-- C2 (amended): `user_share` is the context-rounded quotient `total / n`
(28 significant digits, round half even — not the exact quotient) and
`others_owe` is the context-rounded difference `total - user_share`,
computed by subtraction; whenever the total and that difference are
expressible in 28 significant digits — every everyday amount — the context
rounds neither, and `user_share + others_owe = total` exactly (also under
the context-rounded addition the program would perform). -/
theorem claim2_context_rounding (total : ℚ) (n : ℕ) (_hpos : 0 < total) (_hn : 2 ≤ n)
    (htot : representable28 total)
    (hdiff : representable28 (total - (computeSplit total n).user_share)) :
    (computeSplit total n).user_share = decDiv total (n : ℚ) ∧
    (computeSplit total n).others_owe = decSub total ((computeSplit total n).user_share) ∧
    (computeSplit total n).user_share + (computeSplit total n).others_owe = total ∧
    decAdd ((computeSplit total n).user_share) ((computeSplit total n).others_owe) = total := by
  have h2 : (computeSplit total n).others_owe
      = decSub total ((computeSplit total n).user_share) := rfl
  have ho : (computeSplit total n).others_owe = total - (computeSplit total n).user_share := by
    rw [h2, decSub]
    exact round28_eq_self _ hdiff
  refine ⟨rfl, h2, ?_, ?_⟩
  · rw [ho]
    ring
  · rw [ho, decAdd, show (computeSplit total n).user_share
      + (total - (computeSplit total n).user_share) = total by ring]
    exact round28_eq_self total htot

theorem claim2_context_rounding_witness :
    (computeSplit 2000 4).user_share = 500 ∧
    (computeSplit 2000 4).user_share + (computeSplit 2000 4).others_owe = 2000 := by
  have hu : (computeSplit 2000 4).user_share = 500 := by
    show round28 ((2000 : ℚ) / ((4 : ℕ) : ℚ)) = 500
    rw [show (2000 : ℚ) / ((4 : ℕ) : ℚ) = 500 by norm_num]
    exact round28_eq_self 500 ⟨500, 0, by norm_num, by norm_num⟩
  have htot : representable28 2000 := ⟨2000, 0, by norm_num, by norm_num⟩
  have hdiff : representable28 (2000 - (computeSplit 2000 4).user_share) := by
    rw [hu]
    exact ⟨1500, 0, by norm_num, by norm_num⟩
  exact ⟨hu, (claim2_context_rounding 2000 4 (by norm_num) (by norm_num) htot hdiff).2.2.1⟩

/-- C3 (evidence): the message `split with 0 people` is routed to the
SplitPayment handler with `split_count = 0` and `amount = 0`; the handler's
only guards are the two `is None` checks, so it reaches the division
`total_amount / Decimal(split_count)` with a participant count of 0 — in
Python that division raises. No caller rejects counts below 2. -/
theorem claim3_unguarded_division :
    (parse ⟨2026, 10, 12⟩ "split with 0 people").intent = Intent.splitPayment ∧
    (parse ⟨2026, 10, 12⟩ "split with 0 people").amount = some 0 ∧
    (parse ⟨2026, 10, 12⟩ "split with 0 people").split_count = some 0 ∧
    dividesBy (create_split_expense (parse ⟨2026, 10, 12⟩ "split with 0 people")) = some 0 ∧
    dividesTotal (create_split_expense (parse ⟨2026, 10, 12⟩ "split with 0 people")) = some 0 := by
  refine ⟨by decide, by decide, by decide, by decide, by decide⟩

/-- C4 (counterexample): for `Spent 500 on food` the extracted description is
`500 food`, which still contains the amount digits `500` — the description
stripper only removes currency-adjacent amounts, not bare numbers — so the
claim that no residue of the amount survives is false. -/
theorem claim4_description_counterexample :
    (parse ⟨2026, 10, 12⟩ "Spent 500 on food").description = some (lit "500 food") ∧
    containsL (lit "500") (lit "500 food") = true := by
  refine ⟨by decide, by decide⟩

/-- C4 (amended): `Spent 500 on food` parses to intent AddExpense, amount
500, the home default currency INR and category hint `Food`; the description
is `500 food`, free of the spend verb but retaining the bare amount. -/
theorem claim4_scenario_amended :
    (parse ⟨2026, 10, 12⟩ "Spent 500 on food").intent = Intent.addExpense ∧
    (parse ⟨2026, 10, 12⟩ "Spent 500 on food").amount = some 500 ∧
    (parse ⟨2026, 10, 12⟩ "Spent 500 on food").currency = "INR" ∧
    (parse ⟨2026, 10, 12⟩ "Spent 500 on food").category_hint = some "Food" ∧
    (parse ⟨2026, 10, 12⟩ "Spent 500 on food").description = some (lit "500 food") ∧
    containsL (lit "spent") (lowerL (lit "500 food")) = false := by
  refine ⟨by decide, by decide, by decide, by decide, by decide, by decide⟩

/-- C5 (counterexample): the amount extractor is not strictly positive — on
`spent 0 on food` the bare-number fallback pattern captures `0` and
`parse_amount` returns the amount 0 rather than absent. -/
theorem claim5_zero_amount_counterexample :
    parse_amount (lit "spent 0 on food") = some 0 := by
  decide

end Claims

/-- Converted amount literals are sums of natural casts and quotients of
natural casts by positive powers of ten, hence nonnegative. -/
theorem orElse_none_eq {α : Type} (f : Unit → Option α) : Option.orElse none f = f () := rfl

theorem orElse_some_eq {α : Type} (a : α) (f : Unit → Option α) :
    Option.orElse (some a) f = some a := rfl

theorem decOfStr_nonneg (s : Str) (q : ℚ) (h : decOfStr s = some q) : 0 ≤ q := by
  simp only [decOfStr] at h
  split at h
  · exact absurd h (by simp)
  · split at h
    · rw [Option.some_inj] at h
      subst h
      positivity
    · split at h
      · rw [Option.some_inj] at h
        subst h
        positivity
      · exact absurd h (by simp)
    · exact absurd h (by simp)

theorem bind_decOfStr_nonneg (o : Option Str) (q : ℚ) (h : o.bind decOfStr = some q) :
    0 ≤ q := by
  cases o with
  | none => exact absurd h (by simp)
  | some s => exact decOfStr_nonneg s q h

/-- C5 (amended): whenever the amount extractor returns a value, that value
is nonnegative — every capture of every amount pattern is an unsigned digit
literal — but it can be zero (see the counterexample), so it is not always
strictly positive. -/
theorem claim5_amount_nonneg (t : Str) (q : ℚ) (h : parse_amount t = some q) : 0 ≤ q := by
  unfold parse_amount at h
  rcases h1 : (scanFirst p1At (lowerL t)).bind decOfStr with _ | v
  · rw [h1, orElse_none_eq] at h
    rcases h2 : (scanFirst p2At (lowerL t)).bind decOfStr with _ | v
    · rw [h2, orElse_none_eq] at h
      rcases h3 : (scanFirst p3At (lowerL t)).bind decOfStr with _ | v
      · rw [h3, orElse_none_eq] at h
        rcases h4 : (scanFirst p4At (lowerL t)).bind decOfStr with _ | v
        · rw [h4, orElse_none_eq] at h
          exact bind_decOfStr_nonneg _ _ h
        · rw [h4, orElse_some_eq, Option.some_inj] at h
          subst h
          exact bind_decOfStr_nonneg _ _ h4
      · rw [h3, orElse_some_eq, Option.some_inj] at h
        subst h
        exact bind_decOfStr_nonneg _ _ h3
    · rw [h2, orElse_some_eq, Option.some_inj] at h
      subst h
      exact bind_decOfStr_nonneg _ _ h2
  · rw [h1, orElse_some_eq, Option.some_inj] at h
    subst h
    exact bind_decOfStr_nonneg _ _ h1

theorem claim5_amount_nonneg_witness :
    parse_amount (lit "spent 50 dollars") = some 50 ∧ (0 : ℚ) ≤ 50 :=
  ⟨by decide, claim5_amount_nonneg (lit "spent 50 dollars") 50 (by decide)⟩

/-- The named-people branch of the split extractor returns the count
`len(people) + 1` together with the people it names. -/
theorem extract_split_info_people (t : Str) (c : Option ℕ) (ps : List Str)
    (h : extract_split_info t = (c, some ps)) : c = some (ps.length + 1) := by
  simp only [extract_split_info] at h
  split at h
  · injection h with h1 h2
    exact absurd h2 (by simp)
  · split at h
    · injection h with h1 h2
      injection h2 with h3
      rw [← h1, h3]
    · injection h with h1 h2
      exact absurd h2 (by simp)

/-- C6: for every input, whenever the parsed message carries a non-empty
list of split people, it also carries a split count equal to
`len(splitPeople) + 1` — the named-people rule produces both together. -/
theorem claim6_split_count_invariant (today : PyDate) (s : String) (ps : List Str)
    (hps : (parse today s).split_people = some ps) (_hne : ps ≠ []) :
    (parse today s).split_count = some (ps.length + 1) := by
  by_cases hh : trimBoth (lowerL s.data) = lit "help" ∨ trimBoth (lowerL s.data) = lit "?"
      ∨ trimBoth (lowerL s.data) = lit "commands"
  · simp [parse, hh] at hps
  · simp only [parse, hh, if_false] at hps ⊢
    by_cases hi : detect_intent (trimBoth (lowerL s.data)) = Intent.splitPayment
    · simp only [hi, if_true] at hps ⊢
      rcases hsi : extract_split_info s.data with ⟨c, sp⟩
      rw [hsi] at hps
      have hsp : sp = some ps := hps
      show c = some (ps.length + 1)
      exact extract_split_info_people s.data c ps (by rw [hsi, hsp])
    · simp [hi] at hps

theorem claim6_split_count_invariant_witness :
    (parse ⟨2026, 10, 12⟩ "split with Rahul and Priya").split_people
      = some [lit "Rahul", lit "Priya"] ∧
    (parse ⟨2026, 10, 12⟩ "split with Rahul and Priya").split_count = some 3 :=
  ⟨by decide,
   claim6_split_count_invariant ⟨2026, 10, 12⟩ "split with Rahul and Priya"
     [lit "Rahul", lit "Priya"] (by decide) (by decide)⟩

/-- C7 (counterexample): the input `expense 100` is classified as
QueryExpenses, not AddExpense — the query pattern `expenses?` already
matches the singular `expense`, so the spend-verb rule never sees it. -/
theorem claim7_expense_counterexample :
    detect_intent (lit "expense 100") = Intent.queryExpenses ∧
    detect_intent (lit "expense 100") ≠ Intent.addExpense := by
  decide

/-- C7 (amended): a message containing the word `expense` (even without the
bare word `expenses` and without any other query word) that matches none of
the higher-priority groups is classified as QueryExpenses, never AddExpense,
because the query pattern `expenses?` matches the singular `expense`. -/
theorem claim7_expense_is_query (t : Str)
    (hexp : containsL (lit "expense") t = true)
    (_hes : containsL (lit "expenses") t = false)
    (_hq1 : containsL (lit "how much") t = false)
    (_hq2 : containsL (lit "show") t = false)
    (_hq3 : containsL (lit "list") t = false)
    (_hq4 : containsL (lit "summary") t = false)
    (_hq5 : containsL (lit "spending") t = false)
    (_hq6 : containsL (lit "what did i") t = false)
    (hd : delete_match t = false)
    (hs : settle_match t = false)
    (hdc : debt_check_match t = false)
    (hsp : split_match t = false)
    (hlc : list_cat_match t = false)
    (hac : add_cat_match t = false) :
    detect_intent t = Intent.queryExpenses := by
  have hq : query_match t = true := by
    unfold query_match
    rw [hexp]
    simp
  simp [detect_intent, hd, hs, hdc, hsp, hlc, hac, hq]

theorem claim7_expense_is_query_witness :
    detect_intent (lit "expense 100") ≠ Intent.addExpense ∧
    detect_intent (lit "expense 100") = Intent.queryExpenses :=
  ⟨by decide,
   claim7_expense_is_query (lit "expense 100") (by decide) (by decide) (by decide)
     (by decide) (by decide) (by decide) (by decide) (by decide) (by decide)
     (by decide) (by decide) (by decide) (by decide) (by decide)⟩

/-- C8: behaviour of the explicit-date extractor: a text containing
`yesterday` yields today minus one day; otherwise the leftmost day-of-month
match with a month name builds the date from the current year, silently
yielding absent for an invalid day (such as `30 feb`); and every returned
date is either yesterday or such an explicitly matched valid date — the
extractor never falls back to today itself. -/
theorem claim8_date_extractor (today : PyDate) (t : Str) :
    (containsL (lit "yesterday") t = true → extract_date today t = some (datePred today)) ∧
    (containsL (lit "yesterday") t = false → ∀ d m, dayMonthSearch t = some (d, some m) →
      extract_date today t = dateOf today.year m d) ∧
    (∀ dte, extract_date today t = some dte →
      containsL (lit "yesterday") t = true ∨
      ∃ d m, dayMonthSearch t = some (d, some m) ∧ dateOf today.year m d = some dte) ∧
    extract_date today (lit "30 feb") = none := by
  refine ⟨?_, ?_, ?_, ?_⟩
  · intro hy
    simp [extract_date, hy]
  · intro hy d m hs
    simp [extract_date, hy, hs]
  · intro dte h
    unfold extract_date at h
    split at h
    · left
      assumption
    · right
      split at h
      · next d m hs => exact ⟨d, m, hs, h⟩
      · exact absurd h (by simp)
      · exact absurd h (by simp)
  · have hy : containsL (lit "yesterday") (lit "30 feb") = false := by decide
    have hs : dayMonthSearch (lit "30 feb") = some (30, some 2) := by decide
    rw [extract_date, if_neg (by rw [hy]; exact Bool.false_ne_true), hs]
    rcases hl : isLeap today.year with _ | _ <;>
      simp [dateOf, daysInMonth, hl]

theorem claim8_date_extractor_witness :
    extract_date ⟨2026, 10, 12⟩ (lit "lunch yesterday") = some (datePred ⟨2026, 10, 12⟩) ∧
    datePred ⟨2026, 10, 12⟩ = ⟨2026, 10, 11⟩ :=
  ⟨(claim8_date_extractor ⟨2026, 10, 12⟩ (lit "lunch yesterday")).1 (by decide), by decide⟩

/-- Lower-casing maps no character to the rupee sign (only A–Z move, and
they move to a–z). -/
theorem pyLower_rupee (c : Char) (h : pyLower c = '₹') : c = '₹' := by
  unfold pyLower at h
  by_cases h1 : c = 'A'
  · rw [if_pos h1] at h
    exact absurd h (by decide)
  rw [if_neg h1] at h
  by_cases h2 : c = 'B'
  · rw [if_pos h2] at h
    exact absurd h (by decide)
  rw [if_neg h2] at h
  by_cases h3 : c = 'C'
  · rw [if_pos h3] at h
    exact absurd h (by decide)
  rw [if_neg h3] at h
  by_cases h4 : c = 'D'
  · rw [if_pos h4] at h
    exact absurd h (by decide)
  rw [if_neg h4] at h
  by_cases h5 : c = 'E'
  · rw [if_pos h5] at h
    exact absurd h (by decide)
  rw [if_neg h5] at h
  by_cases h6 : c = 'F'
  · rw [if_pos h6] at h
    exact absurd h (by decide)
  rw [if_neg h6] at h
  by_cases h7 : c = 'G'
  · rw [if_pos h7] at h
    exact absurd h (by decide)
  rw [if_neg h7] at h
  by_cases h8 : c = 'H'
  · rw [if_pos h8] at h
    exact absurd h (by decide)
  rw [if_neg h8] at h
  by_cases h9 : c = 'I'
  · rw [if_pos h9] at h
    exact absurd h (by decide)
  rw [if_neg h9] at h
  by_cases h10 : c = 'J'
  · rw [if_pos h10] at h
    exact absurd h (by decide)
  rw [if_neg h10] at h
  by_cases h11 : c = 'K'
  · rw [if_pos h11] at h
    exact absurd h (by decide)
  rw [if_neg h11] at h
  by_cases h12 : c = 'L'
  · rw [if_pos h12] at h
    exact absurd h (by decide)
  rw [if_neg h12] at h
  by_cases h13 : c = 'M'
  · rw [if_pos h13] at h
    exact absurd h (by decide)
  rw [if_neg h13] at h
  by_cases h14 : c = 'N'
  · rw [if_pos h14] at h
    exact absurd h (by decide)
  rw [if_neg h14] at h
  by_cases h15 : c = 'O'
  · rw [if_pos h15] at h
    exact absurd h (by decide)
  rw [if_neg h15] at h
  by_cases h16 : c = 'P'
  · rw [if_pos h16] at h
    exact absurd h (by decide)
  rw [if_neg h16] at h
  by_cases h17 : c = 'Q'
  · rw [if_pos h17] at h
    exact absurd h (by decide)
  rw [if_neg h17] at h
  by_cases h18 : c = 'R'
  · rw [if_pos h18] at h
    exact absurd h (by decide)
  rw [if_neg h18] at h
  by_cases h19 : c = 'S'
  · rw [if_pos h19] at h
    exact absurd h (by decide)
  rw [if_neg h19] at h
  by_cases h20 : c = 'T'
  · rw [if_pos h20] at h
    exact absurd h (by decide)
  rw [if_neg h20] at h
  by_cases h21 : c = 'U'
  · rw [if_pos h21] at h
    exact absurd h (by decide)
  rw [if_neg h21] at h
  by_cases h22 : c = 'V'
  · rw [if_pos h22] at h
    exact absurd h (by decide)
  rw [if_neg h22] at h
  by_cases h23 : c = 'W'
  · rw [if_pos h23] at h
    exact absurd h (by decide)
  rw [if_neg h23] at h
  by_cases h24 : c = 'X'
  · rw [if_pos h24] at h
    exact absurd h (by decide)
  rw [if_neg h24] at h
  by_cases h25 : c = 'Y'
  · rw [if_pos h25] at h
    exact absurd h (by decide)
  rw [if_neg h25] at h
  by_cases h26 : c = 'Z'
  · rw [if_pos h26] at h
    exact absurd h (by decide)
  rw [if_neg h26] at h
  exact h

theorem containsL_single (c : Char) (t : Str) :
    containsL [c] t = t.any fun x => c = x := by
  induction t with
  | nil => rfl
  | cons x xs ih =>
    simp only [containsL, List.any_cons]
    rw [ih]
    by_cases hcx : c = x <;> simp [hcx, startsWithL, stripLit]

theorem contains_rupee_lowerL (t : Str) (h : containsL (lit "₹") t = false) :
    containsL (lit "₹") (lowerL t) = false := by
  rw [show lit "₹" = ['₹'] from rfl] at h ⊢
  rw [containsL_single] at h ⊢
  simp only [List.any_eq_false, decide_eq_true_eq] at h
  simp only [lowerL, List.any_map, List.any_eq_false, Function.comp_apply, decide_eq_true_eq]
  intro x hx hrx
  exact h x hx (pyLower_rupee x hrx.symm).symm

/-- C9: currency words are matched by raw substring containment in fixed
dict order, and `rs` is the first word after the rupee sign itself; so any
text with no currency symbol whose lower-cased form contains the two-letter
substring `rs` anywhere is detected as INR, whatever other currency words
also occur. -/
theorem claim9_rs_substring_wins (t : Str)
    (h1 : containsL (lit "₹") t = false)
    (h2 : containsL (lit "$") t = false)
    (h3 : containsL (lit "€") t = false)
    (h4 : containsL (lit "£") t = false)
    (h5 : containsL (lit "¥") t = false)
    (hrs : containsL (lit "rs") (lowerL t) = true) :
    detect_currency t = "INR" := by
  have h1l := contains_rupee_lowerL t h1
  unfold detect_currency
  rw [if_neg (by rw [h1]; exact Bool.false_ne_true),
      if_neg (by rw [h2]; exact Bool.false_ne_true),
      if_neg (by rw [h3]; exact Bool.false_ne_true),
      if_neg (by rw [h4]; exact Bool.false_ne_true),
      if_neg (by rw [h5]; exact Bool.false_ne_true)]
  simp only [CURRENCY_SYMBOLS, List.find?]
  rw [show containsL ['₹'] (lowerL t) = false from h1l,
      show containsL ['r', 's'] (lowerL t) = true from hrs]

theorem claim9_rs_substring_wins_witness :
    detect_currency (lit "spent 50 dollars") = "INR" :=
  claim9_rs_substring_wins (lit "spent 50 dollars") (by decide) (by decide)
    (by decide) (by decide) (by decide) (by decide)

/-- C10: the `this_week` pattern also matches the bare word `week` and the
`this_month` pattern the bare word `month`, and ranges are tried in fixed
table order with first match winning; so any text with the word `week` and
neither `today` nor `yesterday` maps to `this_week` — in particular
`last week` yields `this_week` (never `last_week`), and `last month` yields
`this_month` (never `last_month`). -/
theorem claim10_week_collapse :
    (∀ t : Str, wordOccursL (lit "week") (lowerL t) = true →
      wordOccursL (lit "today") (lowerL t) = false →
      wordOccursL (lit "yesterday") (lowerL t) = false →
      extract_time_range t = some "this_week") ∧
    extract_time_range (lit "last week") = some "this_week" ∧
    extract_time_range (lit "last month") = some "this_month" := by
  refine ⟨?_, by decide, by decide⟩
  intro t hw ht hy
  simp [extract_time_range, hw, ht, hy]

theorem claim10_week_collapse_witness :
    extract_time_range (lit "whole week") = some "this_week" :=
  claim10_week_collapse.1 (lit "whole week") (by decide) (by decide) (by decide)
